import Mathlib

/-!
Verification of the NGG primitive-shader culling/compaction/export pipeline of
`lgc/patch/NggPrimShader.cpp` (the software-emulated geometry front end).

The C++ source is an LLVM IR generator: each modelled definition below embeds
the runtime semantics of the IR that a given block of `NggPrimShader` emits,
over mathematical integers (`Nat`) for the 32-bit integer data paths and over
`ℚ` for the floating-point data paths (exact arithmetic in place of IEEE
rounding; the culling predicates are algebraically faithful to the emitted
operation trees).  Hardware cross-lane primitives (ballot, mbcnt, readlane,
LDS atomics) are modelled by their documented semantics.
-/

/-! ## Bit-manipulation helpers (model of `createUBfe` and of the i32 data path) -/

/-- Model of `NggPrimShader::createUBfe`: unsigned bitfield extract of `count`
bits starting at `offset`. -/
def createUBfe (value offset count : Nat) : Nat :=
  (value >>> offset) &&& (2 ^ count - 1)

/-- An `or` whose left operand has zero low bits is an addition. -/
theorem lor_eq_add_of_mod_eq_zero {a b n : Nat} (ha : a % 2 ^ n = 0) (hb : b < 2 ^ n) :
    a ||| b = a + b := by
  apply Nat.eq_of_testBit_eq
  intro i
  rcases Nat.lt_or_ge i n with hi | hi
  · have hmod : (a + b) % 2 ^ n = b := by
      rw [Nat.add_mod, ha, Nat.zero_add, Nat.mod_mod_of_dvd _ dvd_rfl, Nat.mod_eq_of_lt hb]
    have h1 : (a + b).testBit i = ((a + b) % 2 ^ n).testBit i := by
      rw [Nat.testBit_mod_two_pow]
      simp [hi]
    have h2 : a.testBit i = (a % 2 ^ n).testBit i := by
      rw [Nat.testBit_mod_two_pow]
      simp [hi]
    rw [Nat.testBit_lor, h1, hmod, h2, ha]
    simp
  · obtain ⟨j, rfl⟩ := Nat.exists_eq_add_of_le hi
    obtain ⟨q, rfl⟩ : ∃ q, a = 2 ^ n * q :=
      ⟨a / 2 ^ n, by rw [Nat.mul_div_cancel' (Nat.dvd_of_mod_eq_zero ha)]⟩
    have hbpow : b < 2 ^ (n + j) :=
      lt_of_lt_of_le hb (Nat.pow_le_pow_right (by norm_num) (Nat.le_add_right _ _))
    have hdivab : (2 ^ n * q + b) / 2 ^ n = q := by
      rw [Nat.mul_add_div (Nat.two_pow_pos n), Nat.div_eq_of_lt hb, Nat.add_zero]
    have hdiva : (2 ^ n * q) / 2 ^ n = q := Nat.mul_div_cancel_left q (Nat.two_pow_pos n)
    have hL : (2 ^ n * q + b).testBit (n + j) = q.testBit j := by
      rw [← Nat.testBit_shiftRight, Nat.shiftRight_eq_div_pow, hdivab]
    have hR : (2 ^ n * q).testBit (n + j) = q.testBit j := by
      rw [← Nat.testBit_shiftRight, Nat.shiftRight_eq_div_pow, hdiva]
    rw [Nat.testBit_lor, hL, hR, Nat.testBit_eq_false_of_lt hbpow]
    simp

/-- Shifted `or`-packing ( `CreateShl` followed by `CreateOr` ) is base-`2^n`
digit concatenation. -/
theorem shiftLeft_lor_eq_add (a b n : Nat) (hb : b < 2 ^ n) :
    (a <<< n) ||| b = a * 2 ^ n + b := by
  rw [Nat.shiftLeft_eq, lor_eq_add_of_mod_eq_zero (Nat.mul_mod_left a (2 ^ n)) hb]

/-! ## Claim C1: vertex compaction (culling mode without API GS)

Model of the `.checkVertDrawFlag` / `.endCheckVertDrawFlag` /
`.accumVertCount` / `.endAccumVertCount` / `.compactVert` blocks of
`NggPrimShader::buildPrimShader`. -/

/-- `countDrawn p n` is the number of indices `i < n` with `p i = true`
(the semantics of the hardware population count of a ballot mask restricted
to the low `n` lanes, and of `mbcnt` for lane `n`). -/
def countDrawn (p : Nat → Bool) : Nat → Nat
  | 0 => 0
  | n + 1 => countDrawn p n + (if p n then 1 else 0)

/-- Sum of `f i` over `i < n` (used to model the accumulated LDS atomic adds,
which commute). -/
def sumRange (f : Nat → Nat) : Nat → Nat
  | 0 => 0
  | n + 1 => sumRange f n + f n

/-- State feeding the vertex-compaction phase of one subgroup: wave geometry
and the per-vertex draw flags that the culling phase left in LDS
(`rawDrawFlag v` is the value a thread would read back from the `drawFlag`
slot of vertex `v`). -/
structure CompactionInput where
  waveSize : Nat
  waveCount : Nat
  vertCountInSubgroup : Nat
  rawDrawFlag : Nat → Bool

/-- Effective draw flag of subgroup thread `v`: the `.endCheckVertDrawFlag`
phi yields the LDS flag for threads with `threadIdInSubgroup <
vertCountInSubgroup` and `false` for the others. -/
def drawFlag (c : CompactionInput) (v : Nat) : Bool :=
  decide (v < c.vertCountInSubgroup) && c.rawDrawFlag v

/-- `ballot(drawFlag)` + `ctpop` in `.endCheckVertDrawFlag`: the number of
drawn vertices of wave `w`. -/
def vertCountInWave (c : CompactionInput) (w : Nat) : Nat :=
  countDrawn (fun l => drawFlag c (w * c.waveSize + l)) c.waveSize

/-- Content of slot `j` of the `VertexCounts` LDS region after the barrier of
`.endAccumVertCount`: the region is zero-initialized in `.initVertCount`, and
in `.accumVertCount` each lane `t < waveCount - w` of wave `w` performs
`atomicAdd(vertCountInWave w, slot (w + t + 1))`.  Atomic adds commute, so the
final content is the sum of all contributions. -/
def ldsVertCounts (c : CompactionInput) (j : Nat) : Nat :=
  sumRange
    (fun w =>
      sumRange (fun t => if w + t + 1 = j then vertCountInWave c w else 0) (c.waveCount - w))
    c.waveCount

/-- `readlane(vertCountInWaves, waveCount)` in `.endAccumVertCount`: the
drawn-vertex count of the whole subgroup (the sentinel slot past the per-wave
slots). -/
def vertCountAfterCulling (c : CompactionInput) : Nat :=
  ldsVertCounts c c.waveCount

/-- `readlane(vertCountInWaves, waveIdInSubgroup)`: the drawn-vertex count of
all waves preceding wave `w` (its exclusive position in the running total). -/
def vertCountInPrevWaves (c : CompactionInput) (w : Nat) : Nat :=
  ldsVertCounts c w

/-- `mbcnt_lo`/`mbcnt_hi` over the wave draw mask in `.compactVert`: the
number of drawn lanes of wave `w` with lane id below `l`. -/
def mbcnt (c : CompactionInput) (w l : Nat) : Nat :=
  countDrawn (fun k => drawFlag c (w * c.waveSize + k)) l

/-- The compacted vertex index computed in `.compactVert`:
`vertCountInPrevWaves + mbcnt(drawMask)`. -/
def compactedVertexIndex (c : CompactionInput) (w l : Nat) : Nat :=
  vertCountInPrevWaves c w + mbcnt c w l

/-- `hasCulledVertices` in `.endAccumVertCount`: the compaction path is taken
only when the post-culling count dropped below the input vertex count. -/
def hasCulledVertices (c : CompactionInput) : Bool :=
  decide (vertCountAfterCulling c < c.vertCountInSubgroup)

theorem countDrawn_mono (p : Nat → Bool) {m n : Nat} (h : m ≤ n) :
    countDrawn p m ≤ countDrawn p n := by
  induction n with
  | zero => simpa using Nat.le_antisymm h (Nat.zero_le m) ▸ Nat.le_refl _
  | succ n ih =>
    rcases Nat.lt_or_ge m (n + 1) with hm | hm
    · exact le_trans (ih (Nat.lt_succ_iff.mp hm)) (Nat.le_add_right _ _)
    · have : m = n + 1 := Nat.le_antisymm h hm
      subst this
      exact Nat.le_refl _

theorem countDrawn_lt_of_drawn (p : Nat → Bool) {v n : Nat} (hv : v < n) (hp : p v = true) :
    countDrawn p v < countDrawn p n := by
  have hstep : countDrawn p v + 1 ≤ countDrawn p (v + 1) := by
    simp [countDrawn, hp]
  exact lt_of_lt_of_le (Nat.lt_of_lt_of_le (Nat.lt_succ_self _) hstep) (countDrawn_mono p hv)

theorem countDrawn_add (p : Nat → Bool) (a b : Nat) :
    countDrawn p (a + b) = countDrawn p a + countDrawn (fun i => p (a + i)) b := by
  induction b with
  | zero => simp [countDrawn]
  | succ b ih => simp [countDrawn, ← Nat.add_assoc, ih]

theorem countDrawn_surjective (p : Nat → Bool) :
    ∀ n k, k < countDrawn p n → ∃ v, v < n ∧ p v = true ∧ countDrawn p v = k := by
  intro n
  induction n with
  | zero => intro k hk; simp [countDrawn] at hk
  | succ n ih =>
    intro k hk
    rcases Nat.lt_or_ge k (countDrawn p n) with h | h
    · obtain ⟨v, hv, hpv, hcv⟩ := ih k h
      exact ⟨v, Nat.lt_succ_of_lt hv, hpv, hcv⟩
    · refine ⟨n, Nat.lt_succ_self n, ?_, ?_⟩
      · by_contra hpn
        simp only [Bool.not_eq_true] at hpn
        simp [countDrawn, hpn] at hk
        omega
      · have hpn : p n = true := by
          by_contra hpn
          simp only [Bool.not_eq_true] at hpn
          simp [countDrawn, hpn] at hk
          omega
        simp [countDrawn, hpn] at hk
        omega

theorem sumRange_congr {f g : Nat → Nat} {n : Nat} (h : ∀ i, i < n → f i = g i) :
    sumRange f n = sumRange g n := by
  induction n with
  | zero => rfl
  | succ n ih =>
    simp [sumRange, ih fun i hi => h i (Nat.lt_succ_of_lt hi), h n (Nat.lt_succ_self n)]

theorem sumRange_ite_eq (A : Nat) (w j n : Nat) :
    sumRange (fun t => if w + t + 1 = j then A else 0) n =
      if w < j ∧ j ≤ w + n then A else 0 := by
  induction n with
  | zero =>
    simp only [sumRange]
    split_ifs <;> omega
  | succ n ih =>
    simp only [sumRange, ih]
    split_ifs <;> omega

theorem sumRange_ite_lt (f : Nat → Nat) (j : Nat) :
    ∀ n, sumRange (fun i => if i < j then f i else 0) n = sumRange f (min j n) := by
  intro n
  induction n with
  | zero => simp [sumRange]
  | succ n ih =>
    simp only [sumRange, ih]
    rcases Nat.lt_or_ge n j with h | h
    · have h1 : min j n = n := by omega
      have h2 : min j (n + 1) = n + 1 := by omega
      simp [h1, h2, h, sumRange]
    · have h1 : min j n = j := by omega
      have h2 : min j (n + 1) = j := by omega
      have h3 : ¬n < j := by omega
      simp [h1, h2, h3]

/-- The accumulated `VertexCounts` slot `j ≤ waveCount` holds the total drawn
count of waves `0 .. j-1`. -/
theorem ldsVertCounts_eq (c : CompactionInput) {j : Nat} (hj : j ≤ c.waveCount) :
    ldsVertCounts c j = sumRange (vertCountInWave c) j := by
  unfold ldsVertCounts
  have h1 : ∀ w, w < c.waveCount →
      sumRange (fun t => if w + t + 1 = j then vertCountInWave c w else 0) (c.waveCount - w) =
        if w < j then vertCountInWave c w else 0 := by
    intro w hw
    rw [sumRange_ite_eq]
    have : w + (c.waveCount - w) = c.waveCount := by omega
    rw [this]
    split_ifs <;> omega
  rw [sumRange_congr h1, sumRange_ite_lt]
  have : min j c.waveCount = j := by omega
  rw [this]

/-- The per-wave running total is the rank of the wave's first lane. -/
theorem sumRange_vertCountInWave (c : CompactionInput) (w : Nat) :
    sumRange (vertCountInWave c) w = countDrawn (drawFlag c) (w * c.waveSize) := by
  induction w with
  | zero => simp [sumRange, countDrawn]
  | succ w ih =>
    have : (w + 1) * c.waveSize = w * c.waveSize + c.waveSize := by ring
    rw [this, countDrawn_add, sumRange, ih]
    rfl

/-- Claim C1: in culling mode without API GS, with vertex compaction enabled
and at least one vertex culled, each drawn vertex's compacted index equals its
wave's exclusive running total (read from the per-wave counter array) plus the
population count of drawn lanes with lower lane id in its wave; this equals
the number of drawn vertices with smaller subgroup thread id, and over the
subgroup the compacted indices exactly cover `{0, …, D-1}` (`D` the drawn
count) with no gaps or repeats, preserving the relative order of the original
indices. -/
theorem c1_vertex_compaction_bijection (c : CompactionInput)
    (hwave : c.waveCount < c.waveSize)
    (hculled : hasCulledVertices c = true) :
    vertCountAfterCulling c = countDrawn (drawFlag c) (c.waveCount * c.waveSize)
    ∧ (∀ w l, w < c.waveCount → l < c.waveSize →
        drawFlag c (w * c.waveSize + l) = true →
          compactedVertexIndex c w l = countDrawn (drawFlag c) (w * c.waveSize + l)
          ∧ compactedVertexIndex c w l < vertCountAfterCulling c)
    ∧ (∀ w l w' l', w < c.waveCount → l < c.waveSize → w' < c.waveCount → l' < c.waveSize →
        drawFlag c (w * c.waveSize + l) = true → drawFlag c (w' * c.waveSize + l') = true →
        w * c.waveSize + l < w' * c.waveSize + l' →
          compactedVertexIndex c w l < compactedVertexIndex c w' l')
    ∧ (∀ k, k < vertCountAfterCulling c → ∃ w l, w < c.waveCount ∧ l < c.waveSize ∧
        drawFlag c (w * c.waveSize + l) = true ∧ compactedVertexIndex c w l = k) := by
  have hws : 0 < c.waveSize := lt_of_le_of_lt (Nat.zero_le _) hwave
  have htotal : vertCountAfterCulling c = countDrawn (drawFlag c) (c.waveCount * c.waveSize) := by
    rw [vertCountAfterCulling, ldsVertCounts_eq c (Nat.le_refl _), sumRange_vertCountInWave]
  have hrank : ∀ w l, w < c.waveCount →
      compactedVertexIndex c w l = countDrawn (drawFlag c) (w * c.waveSize + l) := by
    intro w l hw
    rw [compactedVertexIndex, vertCountInPrevWaves, ldsVertCounts_eq c (Nat.le_of_lt hw),
      sumRange_vertCountInWave, countDrawn_add]
    rfl
  have hlt : ∀ w l, w < c.waveCount → l < c.waveSize → w * c.waveSize + l < c.waveCount * c.waveSize := by
    intro w l hw hl
    calc w * c.waveSize + l < w * c.waveSize + c.waveSize := by omega
    _ = (w + 1) * c.waveSize := by ring
    _ ≤ c.waveCount * c.waveSize := Nat.mul_le_mul_right _ hw
  refine ⟨htotal, ?_, ?_, ?_⟩
  · intro w l hw hl hdrawn
    refine ⟨hrank w l hw, ?_⟩
    rw [hrank w l hw, htotal]
    exact countDrawn_lt_of_drawn _ (hlt w l hw hl) hdrawn
  · intro w l w' l' hw hl hw' hl' hd hd' hord
    rw [hrank w l hw, hrank w' l' hw']
    exact countDrawn_lt_of_drawn _ hord hd
  · intro k hk
    rw [htotal] at hk
    obtain ⟨v, hv, hpv, hcv⟩ := countDrawn_surjective (drawFlag c) _ k hk
    refine ⟨v / c.waveSize, v % c.waveSize, ?_, Nat.mod_lt _ hws, ?_, ?_⟩
    · exact Nat.div_lt_of_lt_mul (by rwa [Nat.mul_comm] at hv)
    · rwa [Nat.div_add_mod']
    · rw [hrank _ _ (Nat.div_lt_of_lt_mul (by rwa [Nat.mul_comm] at hv)), Nat.div_add_mod']
      exact hcv

/-- Concrete subgroup used to witness claim C1: two waves of four lanes,
vertices 1 and 5 drawn. -/
def c1Example : CompactionInput :=
  { waveSize := 4
    waveCount := 2
    vertCountInSubgroup := 8
    rawDrawFlag := fun v => decide (v = 1) || decide (v = 5) }

/-- Witness for claim C1 at a concrete subgroup. -/
theorem c1_vertex_compaction_bijection_witness :
    c1Example.waveCount < c1Example.waveSize
    ∧ hasCulledVertices c1Example = true
    ∧ (vertCountAfterCulling c1Example =
        countDrawn (drawFlag c1Example) (c1Example.waveCount * c1Example.waveSize)
      ∧ (∀ w l, w < c1Example.waveCount → l < c1Example.waveSize →
          drawFlag c1Example (w * c1Example.waveSize + l) = true →
            compactedVertexIndex c1Example w l =
              countDrawn (drawFlag c1Example) (w * c1Example.waveSize + l)
            ∧ compactedVertexIndex c1Example w l < vertCountAfterCulling c1Example)
      ∧ (∀ w l w' l', w < c1Example.waveCount → l < c1Example.waveSize →
          w' < c1Example.waveCount → l' < c1Example.waveSize →
          drawFlag c1Example (w * c1Example.waveSize + l) = true →
          drawFlag c1Example (w' * c1Example.waveSize + l') = true →
          w * c1Example.waveSize + l < w' * c1Example.waveSize + l' →
            compactedVertexIndex c1Example w l < compactedVertexIndex c1Example w' l')
      ∧ (∀ k, k < vertCountAfterCulling c1Example →
          ∃ w l, w < c1Example.waveCount ∧ l < c1Example.waveSize ∧
            drawFlag c1Example (w * c1Example.waveSize + l) = true
            ∧ compactedVertexIndex c1Example w l = k)) :=
  ⟨by decide, by decide, c1_vertex_compaction_bijection c1Example (by decide) (by decide)⟩

/-! ## Claim C2: primitive connectivity word (`NggPrimShader::exportPrimitive`) -/

/-- Modelled from the spec: the `NullPrim` constant (defined in a header that
is not part of the provided sources) is the connectivity word of a
null/culled primitive, whose null-primitive flag is bit 31. -/
def NullPrim : Nat := 2 ^ 31

/-- The connectivity packing emitted by `exportPrimitive` for a surviving
primitive: `primData = ((vertexIndex2 << 10 | vertexIndex1) << 10) |
vertexIndex0`. -/
def primConnectivityData (v0 v1 v2 : Nat) : Nat :=
  (((v2 <<< 10) ||| v1) <<< 10) ||| v0

/-- The word passed to the primitive export in `exportPrimitive`: `NullPrim`
is selected when the primitive was culled. -/
def exportedPrimData (primitiveCulled : Bool) (v0 v1 v2 : Nat) : Nat :=
  if primitiveCulled then NullPrim else primConnectivityData v0 v1 v2

/-- Claim C2: the exported 32-bit connectivity word carries vertex index 0 in
bits [8:0], vertex index 1 in bits [18:10], vertex index 2 in bits [28:20]
(it equals `(v2 << 20) | (v1 << 10) | v0` when the primitive survives), and
its null-primitive flag bit [31] is set iff the primitive was culled. -/
theorem c2_prim_connectivity_word (primitiveCulled : Bool) (v0 v1 v2 : Nat)
    (h0 : v0 < 512) (h1 : v1 < 512) (h2 : v2 < 512) :
    (primitiveCulled = false →
      exportedPrimData primitiveCulled v0 v1 v2 = (v2 <<< 20) ||| (v1 <<< 10) ||| v0
      ∧ createUBfe (exportedPrimData primitiveCulled v0 v1 v2) 0 9 = v0
      ∧ createUBfe (exportedPrimData primitiveCulled v0 v1 v2) 10 9 = v1
      ∧ createUBfe (exportedPrimData primitiveCulled v0 v1 v2) 20 9 = v2)
    ∧ Nat.testBit (exportedPrimData primitiveCulled v0 v1 v2) 31 = primitiveCulled := by
  have harith : primConnectivityData v0 v1 v2 = v2 * 1048576 + v1 * 1024 + v0 := by
    rw [primConnectivityData, shiftLeft_lor_eq_add v2 v1 10 (by omega),
      shiftLeft_lor_eq_add _ v0 10 (by omega)]
    norm_num
    ring
  have hflat : (v2 <<< 20) ||| (v1 <<< 10) ||| v0 = v2 * 1048576 + v1 * 1024 + v0 := by
    have ha : (v2 <<< 20) ||| (v1 <<< 10) = v2 * 1048576 + v1 * 1024 := by
      rw [Nat.shiftLeft_eq v1 10, shiftLeft_lor_eq_add v2 _ 20 (by norm_num; omega)]
      norm_num
    rw [ha, lor_eq_add_of_mod_eq_zero (n := 10) (by omega) (by omega)]
  constructor
  · intro hc
    subst hc
    refine ⟨by rw [exportedPrimData, if_neg (by simp), harith, hflat], ?_, ?_, ?_⟩ <;>
      simp only [exportedPrimData, if_neg Bool.false_ne_true, harith, createUBfe,
        Nat.shiftRight_eq_div_pow, Nat.and_pow_two_sub_one_eq_mod] <;>
      norm_num <;> omega
  · cases primitiveCulled with
    | false =>
      simp only [exportedPrimData, if_neg Bool.false_ne_true, harith]
      exact Nat.testBit_eq_false_of_lt (by norm_num; omega)
    | true =>
      have hnp : exportedPrimData true v0 v1 v2 = NullPrim := rfl
      rw [hnp]
      decide

/-- Witness for claim C2 at concrete vertex indices. -/
theorem c2_prim_connectivity_word_witness :
    (3 : Nat) < 512 ∧ (7 : Nat) < 512 ∧ (255 : Nat) < 512
    ∧ ((false = false →
        exportedPrimData false 3 7 255 = (255 <<< 20) ||| (7 <<< 10) ||| 3
        ∧ createUBfe (exportedPrimData false 3 7 255) 0 9 = 3
        ∧ createUBfe (exportedPrimData false 3 7 255) 10 9 = 7
        ∧ createUBfe (exportedPrimData false 3 7 255) 20 9 = 255)
      ∧ Nat.testBit (exportedPrimData false 3 7 255) 31 = false) :=
  ⟨by decide, by decide, by decide,
    c2_prim_connectivity_word false 3 7 255 (by decide) (by decide) (by decide)⟩

/-! ## Claims C3/C5: final subgroup counts (`.endCompactVert`) and the
GS_ALLOC_REQ count-report word (`NggPrimShader::sendGsAllocReqMessage`) -/

/-- Inputs of the `.endCompactVert` block: compile-time flags, the
hardware-provided subgroup counts, and the post-culling drawn-vertex count
read from the `VertexCounts` sentinel slot. -/
structure EndCompactVertInput where
  compactVertex : Bool
  waNggCullingNoEmptySubgroups : Bool
  vertCountIn : Nat
  primCountIn : Nat
  drawnVertCount : Nat

/-- `dummyExportCount`: 1 when the chip-revision workaround
`waNggCullingNoEmptySubgroups` is active, 0 otherwise. -/
def dummyExportCount (s : EndCompactVertInput) : Nat :=
  if s.waNggCullingNoEmptySubgroups then 1 else 0

/-- `fullyCulled = (vertCountInSubgroup == 0)` in `.endCompactVert` (the
post-culling count, computed before the compaction branch). -/
def fullyCulled (s : EndCompactVertInput) : Bool :=
  decide (s.drawnVertCount = 0)

/-- The revised `primCountInSubgroup` selected in `.endCompactVert`. -/
def finalPrimCount (s : EndCompactVertInput) : Nat :=
  if fullyCulled s then dummyExportCount s else s.primCountIn

/-- The revised `vertCountInSubgroup` selected in `.endCompactVert` (with
vertex compaction the post-culling count, otherwise the original count). -/
def finalVertCount (s : EndCompactVertInput) : Nat :=
  if fullyCulled s then dummyExportCount s
  else if s.compactVertex then s.drawnVertCount else s.vertCountIn

/-- The M0 payload of the GS_ALLOC_REQ message built by
`sendGsAllocReqMessage`: `(primCountInSubgroup << 12) | vertCountInSubgroup`. -/
def sendGsAllocReqWord (vertCount primCount : Nat) : Nat :=
  (primCount <<< 12) ||| vertCount

/-- Bits [10:0] and [22:12] of the count-report word decode to the two packed
counts when both fit in 11 bits. -/
theorem allocReqWord_decode (vertCount primCount : Nat)
    (hv : vertCount ≤ 256) (hp : primCount ≤ 256) :
    createUBfe (sendGsAllocReqWord vertCount primCount) 0 11 = vertCount
    ∧ createUBfe (sendGsAllocReqWord vertCount primCount) 12 11 = primCount
    ∧ sendGsAllocReqWord vertCount primCount = vertCount ||| (primCount <<< 12) := by
  have harith : sendGsAllocReqWord vertCount primCount = primCount * 4096 + vertCount := by
    rw [sendGsAllocReqWord, shiftLeft_lor_eq_add _ _ 12 (by norm_num; omega)]
    norm_num
  refine ⟨?_, ?_, by rw [sendGsAllocReqWord, Nat.lor_comm]⟩ <;>
    simp only [harith, createUBfe, Nat.shiftRight_eq_div_pow,
      Nat.and_pow_two_sub_one_eq_mod] <;>
    norm_num <;> omega

/-- Claim C3: the count-report word equals
`vertexCount | (primitiveCount << 12)` for the final (post-culling /
compaction, possibly forced-dummy) counts, those counts sit in bits [10:0]
and [22:12], and they never exceed 256. -/
theorem c3_alloc_req_counts (s : EndCompactVertInput)
    (hv : s.vertCountIn ≤ 256) (hp : s.primCountIn ≤ 256)
    (hd : s.drawnVertCount ≤ s.vertCountIn) :
    finalVertCount s ≤ 256
    ∧ finalPrimCount s ≤ 256
    ∧ sendGsAllocReqWord (finalVertCount s) (finalPrimCount s) =
        finalVertCount s ||| (finalPrimCount s <<< 12)
    ∧ createUBfe (sendGsAllocReqWord (finalVertCount s) (finalPrimCount s)) 0 11 =
        finalVertCount s
    ∧ createUBfe (sendGsAllocReqWord (finalVertCount s) (finalPrimCount s)) 12 11 =
        finalPrimCount s := by
  have hfv : finalVertCount s ≤ 256 := by
    unfold finalVertCount dummyExportCount
    split_ifs <;> omega
  have hfp : finalPrimCount s ≤ 256 := by
    unfold finalPrimCount dummyExportCount
    split_ifs <;> omega
  obtain ⟨hd0, hd1, hd2⟩ := allocReqWord_decode _ _ hfv hfp
  exact ⟨hfv, hfp, hd2, hd0, hd1⟩

/-- Witness for claim C3 at a concrete `.endCompactVert` input. -/
theorem c3_alloc_req_counts_witness :
    (200 : Nat) ≤ 256 ∧ (100 : Nat) ≤ 256 ∧ (150 : Nat) ≤ 200
    ∧ (finalVertCount ⟨true, true, 200, 100, 150⟩ ≤ 256
      ∧ finalPrimCount ⟨true, true, 200, 100, 150⟩ ≤ 256
      ∧ sendGsAllocReqWord (finalVertCount ⟨true, true, 200, 100, 150⟩)
          (finalPrimCount ⟨true, true, 200, 100, 150⟩) =
          finalVertCount ⟨true, true, 200, 100, 150⟩ |||
            (finalPrimCount ⟨true, true, 200, 100, 150⟩ <<< 12)
      ∧ createUBfe (sendGsAllocReqWord (finalVertCount ⟨true, true, 200, 100, 150⟩)
          (finalPrimCount ⟨true, true, 200, 100, 150⟩)) 0 11 =
          finalVertCount ⟨true, true, 200, 100, 150⟩
      ∧ createUBfe (sendGsAllocReqWord (finalVertCount ⟨true, true, 200, 100, 150⟩)
          (finalPrimCount ⟨true, true, 200, 100, 150⟩)) 12 11 =
          finalPrimCount ⟨true, true, 200, 100, 150⟩) :=
  ⟨by decide, by decide, by decide,
    c3_alloc_req_counts ⟨true, true, 200, 100, 150⟩ (by decide) (by decide) (by decide)⟩

/-! ## Claim C5: fully-culled subgroup workaround
(`dummyExportCount`, `.endCompactVert`, `NggPrimShader::earlyExitWithDummyExport`) -/

/-- The connectivity word exported by the `.dummyExport` block of
`earlyExitWithDummyExport`: the source passes the constant `0` as `src0` of
the primitive export. -/
def dummyExportPrimWord : Nat := 0

/-- Primitive exports issued by `earlyExitWithDummyExport` per subgroup
thread: the `.earlyExit` block branches only thread 0 (`threadIdInSubgroup ==
0`) into `.dummyExport`, which issues a single primitive export carrying
`dummyExportPrimWord`; every other thread issues none. -/
def earlyExitPrimExports (threadIdInSubgroup : Nat) : List Nat :=
  if threadIdInSubgroup = 0 then [dummyExportPrimWord] else []

/-- Position exports issued by `earlyExitWithDummyExport` per subgroup
thread: thread 0 issues `posExpCount` dummy position exports, the others
none. -/
def earlyExitPosExportCount (threadIdInSubgroup posExpCount : Nat) : Nat :=
  if threadIdInSubgroup = 0 then posExpCount else 0

/-- Counterexample to claim C5 as stated: the single dummy primitive export
issued for a fully culled subgroup carries the word `0`, which is not a null
primitive — its null-primitive flag bit [31] is clear and it differs from
`NullPrim`. -/
theorem c5_counterexample_dummy_export_not_null :
    earlyExitPrimExports 0 = [dummyExportPrimWord]
    ∧ Nat.testBit dummyExportPrimWord 31 = false
    ∧ dummyExportPrimWord ≠ NullPrim := by
  refine ⟨rfl, by decide, by decide⟩

/-- Claim C5 (amended): when `waNggCullingNoEmptySubgroups` is active and the
subgroup's true drawn count is zero, the reported vertex and primitive counts
are forced to 1 and a single degenerate dummy primitive export — carrying the
all-zero connectivity word, whose null-primitive flag is clear — is issued by
thread 0 (plus dummy position exports) before early exit; when the workaround
is inactive, the counts are reported as 0. -/
theorem c5_empty_subgroup_workaround (s t : EndCompactVertInput)
    (hwa : s.waNggCullingNoEmptySubgroups = true) (hzero : s.drawnVertCount = 0)
    (hwa' : t.waNggCullingNoEmptySubgroups = false) (hzero' : t.drawnVertCount = 0) :
    finalVertCount s = 1 ∧ finalPrimCount s = 1
    ∧ earlyExitPrimExports 0 = [dummyExportPrimWord]
    ∧ dummyExportPrimWord = 0
    ∧ Nat.testBit dummyExportPrimWord 31 = false
    ∧ (∀ tid, tid ≠ 0 → earlyExitPrimExports tid = [] ∧ earlyExitPosExportCount tid 1 = 0)
    ∧ finalVertCount t = 0 ∧ finalPrimCount t = 0 := by
  have hfc : fullyCulled s = true := by simp [fullyCulled, hzero]
  have hfc' : fullyCulled t = true := by simp [fullyCulled, hzero']
  refine ⟨?_, ?_, rfl, rfl, by decide, ?_, ?_, ?_⟩
  · simp [finalVertCount, hfc, dummyExportCount, hwa]
  · simp [finalPrimCount, hfc, dummyExportCount, hwa]
  · intro tid htid
    simp [earlyExitPrimExports, earlyExitPosExportCount, htid]
  · simp [finalVertCount, hfc', dummyExportCount, hwa']
  · simp [finalPrimCount, hfc', dummyExportCount, hwa']

/-- Witness for the amended claim C5 at concrete `.endCompactVert` inputs. -/
theorem c5_empty_subgroup_workaround_witness :
    (EndCompactVertInput.mk true true 64 32 0).waNggCullingNoEmptySubgroups = true
    ∧ (EndCompactVertInput.mk true true 64 32 0).drawnVertCount = 0
    ∧ (EndCompactVertInput.mk true false 64 32 0).waNggCullingNoEmptySubgroups = false
    ∧ (EndCompactVertInput.mk true false 64 32 0).drawnVertCount = 0
    ∧ (finalVertCount (EndCompactVertInput.mk true true 64 32 0) = 1
      ∧ finalPrimCount (EndCompactVertInput.mk true true 64 32 0) = 1
      ∧ earlyExitPrimExports 0 = [dummyExportPrimWord]
      ∧ dummyExportPrimWord = 0
      ∧ Nat.testBit dummyExportPrimWord 31 = false
      ∧ (∀ tid, tid ≠ 0 → earlyExitPrimExports tid = [] ∧ earlyExitPosExportCount tid 1 = 0)
      ∧ finalVertCount (EndCompactVertInput.mk true false 64 32 0) = 0
      ∧ finalPrimCount (EndCompactVertInput.mk true false 64 32 0) = 0) :=
  ⟨rfl, rfl, rfl, rfl,
    c5_empty_subgroup_workaround (EndCompactVertInput.mk true true 64 32 0)
      (EndCompactVertInput.mk true false 64 32 0) rfl rfl rfl rfl⟩

/-! ## Claim C10: runtime passthrough (`.endFetchVertCullData`,
`.runtimePassthrough`, and the `.checkAllocReq` phi nodes) -/

/-- The `-ngg-small-subgroup-threshold` option default: subgroups with fewer
input vertices than this skip NGG culling. -/
def NggSmallSubgroupThreshold : Nat := 16

/-- The branch condition built in `.endFetchVertCullData`: runtime
passthrough is taken when the Z channel of the vertex position is a
compile-time constant, or else when `vertCountInSubgroup <
NggSmallSubgroupThreshold`. -/
def runtimePassthrough (constPositionZ : Bool) (vertCountInSubgroup : Nat) : Bool :=
  constPositionZ || decide (vertCountInSubgroup < NggSmallSubgroupThreshold)

/-- The uniform values merged by the `.checkAllocReq` phi nodes (culling path
vs. runtime passthrough path). -/
structure CheckAllocReqState where
  compactVertex : Bool
  primitiveCulled : Bool
  fullyCulled : Bool
  primCountInSubgroup : Nat
  vertCountInSubgroup : Nat

/-- The `.checkAllocReq` phi nodes: coming from `.runtimePassthrough` the
compaction flag, the per-primitive culled flag and the fully-culled flag are
`false` and the subgroup counts are the originally decoded ones; coming from
`.endCompactVert` they are the culling-path values. -/
def checkAllocReqState (rtPassthrough : Bool) (cullingPath : CheckAllocReqState)
    (origVertCount origPrimCount : Nat) : CheckAllocReqState :=
  if rtPassthrough then
    { compactVertex := false
      primitiveCulled := false
      fullyCulled := false
      primCountInSubgroup := origPrimCount
      vertCountInSubgroup := origVertCount }
  else cullingPath

/-- Claim C10: if the position Z channel is compile-time constant or the
subgroup is below the small-subgroup threshold, the shader takes the runtime
passthrough path: no vertex is compacted, the per-primitive culled flag is
false for every primitive, and the originally decoded subgroup counts are
reported unchanged in the count-report word. -/
theorem c10_runtime_passthrough (constPositionZ : Bool) (vertCount primCount : Nat)
    (cullingPath : CheckAllocReqState)
    (hcond : constPositionZ = true ∨ vertCount < NggSmallSubgroupThreshold)
    (hv : vertCount ≤ 256) (hp : primCount ≤ 256) :
    runtimePassthrough constPositionZ vertCount = true
    ∧ checkAllocReqState (runtimePassthrough constPositionZ vertCount) cullingPath
        vertCount primCount =
        { compactVertex := false
          primitiveCulled := false
          fullyCulled := false
          primCountInSubgroup := primCount
          vertCountInSubgroup := vertCount }
    ∧ createUBfe (sendGsAllocReqWord vertCount primCount) 0 11 = vertCount
    ∧ createUBfe (sendGsAllocReqWord vertCount primCount) 12 11 = primCount := by
  have hrt : runtimePassthrough constPositionZ vertCount = true := by
    rcases hcond with h | h
    · simp [runtimePassthrough, h]
    · simp [runtimePassthrough, h]
  obtain ⟨hd0, hd1, _⟩ := allocReqWord_decode vertCount primCount hv hp
  exact ⟨hrt, by rw [hrt, checkAllocReqState, if_pos rfl], hd0, hd1⟩

/-- Witness for claim C10 at a concrete small subgroup. -/
theorem c10_runtime_passthrough_witness :
    (false = true ∨ (12 : Nat) < NggSmallSubgroupThreshold)
    ∧ (12 : Nat) ≤ 256 ∧ (12 : Nat) ≤ 256
    ∧ (runtimePassthrough false 12 = true
      ∧ checkAllocReqState (runtimePassthrough false 12)
          (CheckAllocReqState.mk true true true 0 0) 12 12 =
          { compactVertex := false
            primitiveCulled := false
            fullyCulled := false
            primCountInSubgroup := 12
            vertCountInSubgroup := 12 }
      ∧ createUBfe (sendGsAllocReqWord 12 12) 0 11 = 12
      ∧ createUBfe (sendGsAllocReqWord 12 12) 12 11 = 12) :=
  ⟨Or.inr (by decide), by decide, by decide,
    c10_runtime_passthrough false 12 12 (CheckAllocReqState.mk true true true 0 0)
      (Or.inr (by decide)) (by decide) (by decide)⟩

/-! ## Claim C9: shared-memory region table with API GS and software
transform feedback (`NggPrimShader::layoutPrimShaderLds`, hasGs branch) -/

/-- Modelled from the spec: `Gfx9::NggMaxThreadsPerSubgroup` (chip header not
part of the provided sources) — a subgroup holds at most 256 vertices /
primitives. -/
def NggMaxThreadsPerSubgroup : Nat := 256

/-- Modelled from the spec: `Gfx9::NggMaxWavesPerSubgroup` (chip header not
part of the provided sources) — at most 256 threads at the minimum wave size
of 32 gives 8 waves per subgroup. -/
def NggMaxWavesPerSubgroup : Nat := 8

/-- Modelled from the spec: `MaxTransformFeedbackBuffers` (interface header
not part of the provided sources) — four transform-feedback buffers. -/
def MaxTransformFeedbackBuffers : Nat := 4

/-- Modelled from the spec: `MaxGsStreams` (interface header not part of the
provided sources) — four GS vertex streams. -/
def MaxGsStreams : Nat := 4

/-- The logical LDS regions assigned by the hasGs branch of
`layoutPrimShaderLds`. -/
inductive PrimShaderLdsRegion where
  | EsGsRing
  | PrimitiveData
  | PrimitiveCounts
  | PrimitiveIndexMap
  | VertexCounts
  | VertexIndexMap
  | XfbStats
  | GsVsRing
deriving DecidableEq

/-- Compile-time inputs of the hasGs + `enableSwXfb` layout: the ES-GS ring
LDS size and the total on-chip LDS size from `calcFactor`, and the vertex
compaction flag. -/
structure GsXfbLayoutInput where
  esGsLdsSize : Nat
  gsOnChipLdsSize : Nat
  compactVertex : Bool

/-- `alignTo(esGsLdsSize, 4)`: round up to 4-dword alignment. -/
def alignTo4 (n : Nat) : Nat := ((n + 3) / 4) * 4

/-- The region table computed by `layoutPrimShaderLds` when an API GS is
present and software transform feedback is enabled, as `(offset, size)`
pairs in dwords (`none` for a region that is not assigned).  Regions are
assigned at the running `ldsOffset` in source order: ES-GS ring, primitive
connectivity data, primitive counts, primitive index map, vertex counts
(aliased onto primitive counts), vertex index map (aliased onto the
primitive index map, only with vertex compaction), XFB statistics, GS-VS
ring.  `gsExtraLdsSize` accumulates the sizes of the non-aliased extra
regions. -/
def layoutPrimShaderLdsGsXfb (inp : GsXfbLayoutInput) :
    PrimShaderLdsRegion → Option (Nat × Nat) :=
  let esGsRingSize := alignTo4 inp.esGsLdsSize
  let primDataSize := NggMaxThreadsPerSubgroup * MaxGsStreams
  let primCountsSize := (NggMaxWavesPerSubgroup + 1) * MaxGsStreams
  let primIndexMapSize := NggMaxThreadsPerSubgroup * MaxGsStreams
  let xfbStatsSize := MaxTransformFeedbackBuffers + MaxGsStreams
  let primDataOffset := esGsRingSize
  let primCountsOffset := primDataOffset + primDataSize
  let primIndexMapOffset := primCountsOffset + primCountsSize
  let xfbStatsOffset := primIndexMapOffset + primIndexMapSize
  let gsVsRingOffset := xfbStatsOffset + xfbStatsSize
  let gsExtraLdsSize := primDataSize + primCountsSize + primIndexMapSize + xfbStatsSize
  fun region =>
    match region with
    | PrimShaderLdsRegion.EsGsRing => some (0, esGsRingSize)
    | PrimShaderLdsRegion.PrimitiveData => some (primDataOffset, primDataSize)
    | PrimShaderLdsRegion.PrimitiveCounts => some (primCountsOffset, primCountsSize)
    | PrimShaderLdsRegion.PrimitiveIndexMap => some (primIndexMapOffset, primIndexMapSize)
    | PrimShaderLdsRegion.VertexCounts => some (primCountsOffset, primCountsSize)
    | PrimShaderLdsRegion.VertexIndexMap =>
      if inp.compactVertex then some (primIndexMapOffset, primIndexMapSize) else none
    | PrimShaderLdsRegion.XfbStats => some (xfbStatsOffset, xfbStatsSize)
    | PrimShaderLdsRegion.GsVsRing =>
      some (gsVsRingOffset, inp.gsOnChipLdsSize - esGsRingSize - gsExtraLdsSize)

/-- Two `(offset, size)` dword ranges do not overlap. -/
def regionsDisjoint (a b : Nat × Nat) : Prop :=
  a.1 + a.2 ≤ b.1 ∨ b.1 + b.2 ≤ a.1

/-- Counterexample to claim C9 as stated: in the hasGs + software-XFB layout
the XFB statistics region is a fresh region placed after the primitive index
map, not a byte-for-byte reuse of it — at `esGsLdsSize = 0`,
`gsOnChipLdsSize = 4096`, compaction enabled, the primitive index map is
`(offset 1060, size 1024)` while the XFB statistics region is
`(offset 2084, size 8)`. -/
theorem c9_counterexample_xfb_stats_not_aliased :
    layoutPrimShaderLdsGsXfb (GsXfbLayoutInput.mk 0 4096 true)
        PrimShaderLdsRegion.PrimitiveIndexMap = some (1060, 1024)
    ∧ layoutPrimShaderLdsGsXfb (GsXfbLayoutInput.mk 0 4096 true)
        PrimShaderLdsRegion.XfbStats = some (2084, 8)
    ∧ layoutPrimShaderLdsGsXfb (GsXfbLayoutInput.mk 0 4096 true)
        PrimShaderLdsRegion.XfbStats ≠
      layoutPrimShaderLdsGsXfb (GsXfbLayoutInput.mk 0 4096 true)
        PrimShaderLdsRegion.PrimitiveIndexMap := by
  refine ⟨rfl, rfl, by decide⟩

/-- Claim C9 (amended): in the hasGs + software-XFB region table, the
primitive-index compaction map region is reused byte-for-byte as the
vertex-index map region (when vertex compaction is enabled), and the
primitive-counts region is reused byte-for-byte as the vertex-counts region;
the XFB statistics region is a separate region; and all pairs of distinct
physical regions (ES-GS ring, primitive data, primitive counts, primitive
index map, XFB statistics, GS-VS ring) are non-overlapping. -/
theorem c9_lds_layout_aliasing (inp : GsXfbLayoutInput)
    (hcompact : inp.compactVertex = true) :
    layoutPrimShaderLdsGsXfb inp PrimShaderLdsRegion.VertexIndexMap =
      layoutPrimShaderLdsGsXfb inp PrimShaderLdsRegion.PrimitiveIndexMap
    ∧ layoutPrimShaderLdsGsXfb inp PrimShaderLdsRegion.VertexCounts =
      layoutPrimShaderLdsGsXfb inp PrimShaderLdsRegion.PrimitiveCounts
    ∧ (∀ r1 r2, r1 ∈ [PrimShaderLdsRegion.EsGsRing, PrimShaderLdsRegion.PrimitiveData,
          PrimShaderLdsRegion.PrimitiveCounts, PrimShaderLdsRegion.PrimitiveIndexMap,
          PrimShaderLdsRegion.XfbStats, PrimShaderLdsRegion.GsVsRing] →
        r2 ∈ [PrimShaderLdsRegion.EsGsRing, PrimShaderLdsRegion.PrimitiveData,
          PrimShaderLdsRegion.PrimitiveCounts, PrimShaderLdsRegion.PrimitiveIndexMap,
          PrimShaderLdsRegion.XfbStats, PrimShaderLdsRegion.GsVsRing] →
        r1 ≠ r2 →
        ∀ a b, layoutPrimShaderLdsGsXfb inp r1 = some a →
          layoutPrimShaderLdsGsXfb inp r2 = some b → regionsDisjoint a b) := by
  refine ⟨by simp [layoutPrimShaderLdsGsXfb, hcompact], rfl, ?_⟩
  intro r1 r2 h1 h2 hne a b ha hb
  simp only [List.mem_cons, List.mem_singleton, List.not_mem_nil, or_false] at h1 h2
  rcases h1 with rfl | rfl | rfl | rfl | rfl | rfl <;>
    rcases h2 with rfl | rfl | rfl | rfl | rfl | rfl <;>
    first
      | exact absurd rfl hne
      | (simp only [layoutPrimShaderLdsGsXfb, Option.some.injEq] at ha hb
         subst ha
         subst hb
         simp only [regionsDisjoint, NggMaxThreadsPerSubgroup, NggMaxWavesPerSubgroup,
           MaxTransformFeedbackBuffers, MaxGsStreams]
         omega)

/-- Witness for the amended claim C9 at a concrete layout input. -/
theorem c9_lds_layout_aliasing_witness :
    (GsXfbLayoutInput.mk 0 4096 true).compactVertex = true
    ∧ layoutPrimShaderLdsGsXfb (GsXfbLayoutInput.mk 0 4096 true)
        PrimShaderLdsRegion.VertexIndexMap =
      layoutPrimShaderLdsGsXfb (GsXfbLayoutInput.mk 0 4096 true)
        PrimShaderLdsRegion.PrimitiveIndexMap
    ∧ regionsDisjoint (1060, 1024) (2084, 8) :=
  ⟨rfl, (c9_lds_layout_aliasing (GsXfbLayoutInput.mk 0 4096 true) rfl).1,
    (c9_lds_layout_aliasing (GsXfbLayoutInput.mk 0 4096 true) rfl).2.2
      PrimShaderLdsRegion.PrimitiveIndexMap PrimShaderLdsRegion.XfbStats
      (by simp) (by simp) (by decide) (1060, 1024) (2084, 8) rfl rfl⟩

/-! ## Claim C8: transform-feedback write clamping
(`NggPrimShader::processSwXfb`, `.prepareXfbExport` block) -/

/-- Per-buffer state visible to the reserving lane in `.prepareXfbExport`:
whether the buffer is active, `bufferSizeInDwords = NUM_RECORDS >> 2`, the
stream-out buffer offset, the `dwordsWritten` value returned by the ordered
GDS counter, and the compile-time `dwordsPerPrim = vertsPerPrim * stride /
sizeof(unsigned)`. -/
structure XfbBufferState where
  active : Bool
  bufferSizeInDwords : Nat
  bufferOffset : Nat
  dwordsWritten : Nat
  dwordsPerPrim : Nat

/-- `dwordsRemaining / dwordsPerPrim` for one buffer, where `dwordsRemaining
= smax(bufferSizeInDwords - (bufferOffset + dwordsWritten), 0)`; `Nat`
truncated subtraction models the i32 subtraction followed by the signed max
with 0 (magnitudes stay below `2^31`). -/
def primsCanWrite (b : XfbBufferState) : Nat :=
  (b.bufferSizeInDwords - (b.bufferOffset + b.dwordsWritten)) / b.dwordsPerPrim

/-- `numPrimsToWrite` computed by the reserving lane: starting from
`primCountInSubgroup`, fold `umin` with `primsCanWrite` over the active
buffers in index order. -/
def numPrimsToWrite (primCountInSubgroup : Nat) (bufs : List XfbBufferState) : Nat :=
  bufs.foldl (fun acc b => if b.active then min acc (primsCanWrite b) else acc)
    primCountInSubgroup

/-- The export gate in `.endReadXfbStatInfo`: a thread exports staged values
iff `threadIdInSubgroup < numPrimsToWrite`. -/
def xfbThreadExports (threadIdInSubgroup n : Nat) : Bool :=
  decide (threadIdInSubgroup < n)

theorem numPrimsToWrite_le_acc (bufs : List XfbBufferState) :
    ∀ acc, numPrimsToWrite acc bufs ≤ acc := by
  induction bufs with
  | nil => intro acc; exact Nat.le_refl acc
  | cons b bufs ih =>
    intro acc
    rcases hb : b.active with htrue | hfalse
    · simpa [numPrimsToWrite, hb] using ih acc
    · exact le_trans (by simpa [numPrimsToWrite, hb] using ih (min acc (primsCanWrite b)))
        (Nat.min_le_left _ _)

theorem numPrimsToWrite_le_primsCanWrite (bufs : List XfbBufferState) :
    ∀ acc b, b ∈ bufs → b.active = true → numPrimsToWrite acc bufs ≤ primsCanWrite b := by
  induction bufs with
  | nil => intro acc b hb; simp at hb
  | cons a bufs ih =>
    intro acc b hb hactive
    rcases List.mem_cons.mp hb with rfl | hmem
    · exact le_trans (by simpa [numPrimsToWrite, hactive]
          using numPrimsToWrite_le_acc bufs (min acc (primsCanWrite b)))
        (Nat.min_le_right _ _)
    · rcases ha : a.active with htrue | hfalse
      · simpa [numPrimsToWrite, ha] using ih acc b hmem hactive
      · simpa [numPrimsToWrite, ha] using ih (min acc (primsCanWrite a)) b hmem hactive

theorem le_numPrimsToWrite (bufs : List XfbBufferState) :
    ∀ acc m, m ≤ acc → (∀ b, b ∈ bufs → b.active = true → m ≤ primsCanWrite b) →
      m ≤ numPrimsToWrite acc bufs := by
  induction bufs with
  | nil => intro acc m hm _; exact hm
  | cons a bufs ih =>
    intro acc m hm hall
    rcases ha : a.active with htrue | hfalse
    · simpa [numPrimsToWrite, ha] using
        ih acc m hm fun b hb hact => hall b (List.mem_cons_of_mem a hb) hact
    · simpa [numPrimsToWrite, ha] using
        ih (min acc (primsCanWrite a))
          m (le_min hm (hall a (List.mem_cons_self a bufs) ha))
          fun b hb hact => hall b (List.mem_cons_of_mem a hb) hact

/-- Claim C8: the reserving lane clamps the number of primitives written to
the remaining buffer capacity: `numPrimsToWrite` is exactly the minimum of
the subgroup primitive count and, over every active transform-feedback
buffer, of `max(0, bufferSizeInDwords - (bufferOffset + dwordsWritten)) /
dwordsPerPrim` (it is the greatest value below all of these bounds), the
dwords written by it fit in every active buffer's remaining capacity, and
only threads with id below `numPrimsToWrite` export staged values. -/
theorem c8_xfb_clamp (primCountInSubgroup : Nat) (bufs : List XfbBufferState) :
    numPrimsToWrite primCountInSubgroup bufs ≤ primCountInSubgroup
    ∧ (∀ b, b ∈ bufs → b.active = true →
        numPrimsToWrite primCountInSubgroup bufs ≤ primsCanWrite b
        ∧ numPrimsToWrite primCountInSubgroup bufs * b.dwordsPerPrim ≤
            b.bufferSizeInDwords - (b.bufferOffset + b.dwordsWritten))
    ∧ (∀ m, m ≤ primCountInSubgroup →
        (∀ b, b ∈ bufs → b.active = true → m ≤ primsCanWrite b) →
        m ≤ numPrimsToWrite primCountInSubgroup bufs)
    ∧ (∀ tid, xfbThreadExports tid (numPrimsToWrite primCountInSubgroup bufs) = true ↔
        tid < numPrimsToWrite primCountInSubgroup bufs) := by
  refine ⟨numPrimsToWrite_le_acc bufs primCountInSubgroup, ?_,
    le_numPrimsToWrite bufs primCountInSubgroup, fun tid => by simp [xfbThreadExports]⟩
  intro b hb hactive
  have hle := numPrimsToWrite_le_primsCanWrite bufs primCountInSubgroup b hb hactive
  refine ⟨hle, ?_⟩
  calc numPrimsToWrite primCountInSubgroup bufs * b.dwordsPerPrim
      ≤ primsCanWrite b * b.dwordsPerPrim := Nat.mul_le_mul_right _ hle
    _ ≤ b.bufferSizeInDwords - (b.bufferOffset + b.dwordsWritten) := Nat.div_mul_le_self _ _

/-- Concrete buffer set used to witness claim C8: buffer 0 active with room
for 2 primitives, buffer 1 inactive, buffer 2 active with room for 5. -/
def c8Bufs : List XfbBufferState :=
  [XfbBufferState.mk true 100 10 50 20,
   XfbBufferState.mk false 0 0 0 0,
   XfbBufferState.mk true 400 0 100 60]

/-- Witness for claim C8 at a concrete buffer configuration. -/
theorem c8_xfb_clamp_witness :
    (numPrimsToWrite 7 c8Bufs ≤ 7
      ∧ (∀ b, b ∈ c8Bufs → b.active = true →
          numPrimsToWrite 7 c8Bufs ≤ primsCanWrite b
          ∧ numPrimsToWrite 7 c8Bufs * b.dwordsPerPrim ≤
              b.bufferSizeInDwords - (b.bufferOffset + b.dwordsWritten))
      ∧ (∀ m, m ≤ 7 → (∀ b, b ∈ c8Bufs → b.active = true → m ≤ primsCanWrite b) →
          m ≤ numPrimsToWrite 7 c8Bufs)
      ∧ (∀ tid, xfbThreadExports tid (numPrimsToWrite 7 c8Bufs) = true ↔
          tid < numPrimsToWrite 7 c8Bufs))
    ∧ numPrimsToWrite 7 c8Bufs = 2 :=
  ⟨c8_xfb_clamp 7 c8Bufs, by decide⟩

/-! ## Culling algorithm suite (claims C4, C6, C7)

The six culler functions created by `createBackfaceCuller`,
`createFrustumCuller`, `createBoxFilterCuller`, `createSphereCuller`,
`createSmallPrimFilterCuller` and `createCullDistanceCuller`, and their
composition `NggPrimShader::doCulling`.  Floating-point values are modelled
as exact rationals: every `FMul`/`FAdd`/`FSub`/`FNeg`/`FDiv`/`fma` becomes
the corresponding exact operation (in particular `1/0 = 0` in `ℚ` where the
float would give an infinity, and the f16 conversions of the sphere culler
are modelled as exact), and register bit patterns that are only used as bit
fields stay `Nat`. -/

/-- A homogeneous clip-space vertex position (the `<4 x float>` vertex). -/
structure Vec4 where
  x : ℚ
  y : ℚ
  z : ℚ
  w : ℚ

/-- Model of `createBackfaceCuller`: `.backfaceEntry` short-circuits on an
incoming `true` flag, `.backfaceCull` evaluates the signed doubled area and
the face/cull-enable controls, `.backfaceExponent` (taken iff
`backfaceExponent != 0`) suppresses areas below
`10^(-backfaceExponent) / |w0*w1*w2|`, and `.backfaceExit` merges the three
paths and applies the wireframe override (`POLY_MODE == 1` forces the
returned flag to `false`). -/
def backfaceCuller (cullFlag : Bool) (vertex0 vertex1 vertex2 : Vec4)
    (backfaceExponent paSuScModeCntl paClVportXscale paClVportYscale : Nat) : Bool :=
  let cullFlagPhi :=
    if cullFlag then cullFlag
    else
      let area := vertex0.x * (vertex1.y * vertex2.w - vertex2.y * vertex1.w)
        - vertex1.x * (vertex0.y * vertex2.w - vertex2.y * vertex0.w)
        + vertex2.x * (vertex0.y * vertex1.w - vertex1.y * vertex0.w)
      let frontFaceSign := createUBfe (paClVportXscale ^^^ paClVportYscale) 31 1
      let face := createUBfe paSuScModeCntl 2 1
      let frontFace := if face ^^^ frontFaceSign = 0 then decide (area < 0) else decide (0 < area)
      let backFace := !frontFace
      let cullFront := if decide (paSuScModeCntl &&& 1 = 1) then frontFace else false
      let cullBack := if decide (createUBfe paSuScModeCntl 1 1 = 1) then backFace else false
      let cullFlag1 := cullFront || cullBack
      if backfaceExponent ≠ 0 then
        let threshold := (10 : ℚ) ^ (-(backfaceExponent : ℤ))
          * (1 / abs (vertex0.w * vertex1.w * vertex2.w))
        cullFlag1 && decide (threshold ≤ abs area)
      else cullFlag1
  if createUBfe paSuScModeCntl 3 2 = 1 then false else cullFlagPhi

/-- `zNear` selected from `DX_CLIP_SPACE_DEF` (`PA_CL_CLIP_CNTL[19]`). -/
def frustumZNear (paClClipCntl : Nat) : ℚ :=
  if createUBfe paClClipCntl 19 1 = 1 then -1 else 0

/-- The 6-bit violated-half-space mask one vertex contributes in
`createFrustumCuller`: bit 0 for `x < -xDiscAdj*w`, bit 1 for
`x > xDiscAdj*w`, bit 2 for `y < -yDiscAdj*w`, bit 3 for `y > yDiscAdj*w`,
bit 4 for `z < zNear*w`, bit 5 for `z > w`. -/
def frustumClipMask (zNear xDiscAdj yDiscAdj : ℚ) (v : Vec4) : Nat :=
  ((if v.x < -xDiscAdj * v.w then 0x1 else 0) ||| (if xDiscAdj * v.w < v.x then 0x2 else 0))
    ||| ((if v.y < -yDiscAdj * v.w then 0x4 else 0) ||| (if yDiscAdj * v.w < v.y then 0x8 else 0))
    ||| ((if v.z < zNear * v.w then 0x10 else 0) ||| (if v.w < v.z then 0x20 else 0))

/-- Model of `createFrustumCuller`: short-circuit on an incoming `true`
flag, otherwise cull iff the bitwise AND of the three vertices' clip masks
is nonzero. -/
def frustumCuller (cullFlag : Bool) (vertex0 vertex1 vertex2 : Vec4)
    (paClClipCntl : Nat) (xDiscAdj yDiscAdj : ℚ) : Bool :=
  if cullFlag then cullFlag
  else
    let zNear := frustumZNear paClClipCntl
    decide (frustumClipMask zNear xDiscAdj yDiscAdj vertex0
      &&& frustumClipMask zNear xDiscAdj yDiscAdj vertex1
      &&& frustumClipMask zNear xDiscAdj yDiscAdj vertex2 ≠ 0)

/-- Model of `createBoxFilterCuller`: short-circuit on an incoming `true`
flag, otherwise convert to NDC honoring `VTX_XY_FMT`/`VTX_Z_FMT`, take the
axis-aligned bounding box of the three vertices and cull if it lies entirely
outside the discard range on some axis. -/
def boxFilterCuller (cullFlag : Bool) (vertex0 vertex1 vertex2 : Vec4)
    (paClVteCntl paClClipCntl : Nat) (xDiscAdj yDiscAdj : ℚ) : Bool :=
  if cullFlag then cullFlag
  else
    let vtxXyFmt := createUBfe paClVteCntl 8 1 = 1
    let vtxZFmt := createUBfe paClVteCntl 9 1 = 1
    let zNear := frustumZNear paClClipCntl
    let zFar : ℚ := 1
    let rcpW0ForXy : ℚ := if vtxXyFmt then 1 else 1 / vertex0.w
    let rcpW1ForXy : ℚ := if vtxXyFmt then 1 else 1 / vertex1.w
    let rcpW2ForXy : ℚ := if vtxXyFmt then 1 else 1 / vertex2.w
    let rcpW0ForZ : ℚ := if vtxZFmt then 1 else 1 / vertex0.w
    let rcpW1ForZ : ℚ := if vtxZFmt then 1 else 1 / vertex1.w
    let rcpW2ForZ : ℚ := if vtxZFmt then 1 else 1 / vertex2.w
    let x0 := vertex0.x * rcpW0ForXy
    let y0 := vertex0.y * rcpW0ForXy
    let z0 := vertex0.z * rcpW0ForZ
    let x1 := vertex1.x * rcpW1ForXy
    let y1 := vertex1.y * rcpW1ForXy
    let z1 := vertex1.z * rcpW1ForZ
    let x2 := vertex2.x * rcpW2ForXy
    let y2 := vertex2.y * rcpW2ForXy
    let z2 := vertex2.z * rcpW2ForZ
    let minX := min (min x0 x1) x2
    let maxX := max (max x0 x1) x2
    let minY := min (min y0 y1) y2
    let maxY := max (max y0 y1) y2
    let minZ := min (min z0 z1) z2
    let maxZ := max (max z0 z1) z2
    let cullX := decide (xDiscAdj < minX) || decide (maxX < -xDiscAdj)
    let cullY := decide (yDiscAdj < minY) || decide (maxY < -yDiscAdj)
    let cullZ := decide (zFar < minZ) || decide (maxZ < zNear)
    cullX || cullY || cullZ

/-- Model of `createSphereCuller`: short-circuit on an incoming `true` flag,
otherwise map the triangle into the normalized discard space, solve the 2×2
linear system (Cramer's rule) for the barycentric coordinates of the point
closest to the origin, clamp to the simplex (with the dedicated `s+t > 1`
case), back-project and cull iff the squared distance exceeds 3. -/
def sphereCuller (cullFlag : Bool) (vertex0 vertex1 vertex2 : Vec4)
    (paClVteCntl paClClipCntl : Nat) (xDiscAdj yDiscAdj : ℚ) : Bool :=
  if cullFlag then cullFlag
  else
    let vtxXyFmt := createUBfe paClVteCntl 8 1 = 1
    let vtxZFmt := createUBfe paClVteCntl 9 1 = 1
    let zNear := frustumZNear paClClipCntl
    let rcpW0ForXy : ℚ := if vtxXyFmt then 1 else 1 / vertex0.w
    let rcpW1ForXy : ℚ := if vtxXyFmt then 1 else 1 / vertex1.w
    let rcpW2ForXy : ℚ := if vtxXyFmt then 1 else 1 / vertex2.w
    let rcpW0ForZ : ℚ := if vtxZFmt then 1 else 1 / vertex0.w
    let rcpW1ForZ : ℚ := if vtxZFmt then 1 else 1 / vertex1.w
    let rcpW2ForZ : ℚ := if vtxZFmt then 1 else 1 / vertex2.w
    let rcpXDiscAdj : ℚ := 1 / xDiscAdj
    let rcpYDiscAdj : ℚ := 1 / yDiscAdj
    let x0 := vertex0.x * rcpW0ForXy * rcpXDiscAdj
    let y0 := vertex0.y * rcpW0ForXy * rcpYDiscAdj
    let x1 := vertex1.x * rcpW1ForXy * rcpXDiscAdj
    let y1 := vertex1.y * rcpW1ForXy * rcpYDiscAdj
    let x2 := vertex2.x * rcpW2ForXy * rcpXDiscAdj
    let y2 := vertex2.y * rcpW2ForXy * rcpYDiscAdj
    let z0 := (zNear + 2) * (vertex0.z * rcpW0ForZ) + (-1 - zNear)
    let z1 := (zNear + 2) * (vertex1.z * rcpW1ForZ) + (-1 - zNear)
    let z2 := (zNear + 2) * (vertex2.z * rcpW2ForZ) + (-1 - zNear)
    let x20 := x2 - x0
    let y20 := y2 - y0
    let x10 := x1 - x0
    let y10 := y1 - y0
    let z20 := z2 - z0
    let z10 := z1 - z0
    let a00 := x10 + z10
    let a01 := x20 + z20
    let a10 := y10 + y10
    let a11 := y20 + z20
    let b0 := -x0 - x2
    let b1 := -x1 - x2
    let detA := -a01 * a10 + a00 * a11
    let detAB0 := -a01 * b1 + b0 * a11
    let detAB1 := -b0 * a10 + a00 * b1
    let rcpDetA : ℚ := 1 / detA
    let s := detAB0 * rcpDetA
    let t := detAB1 * rcpDetA
    let s1 := -(1/2) * (t - s) + 1/2
    let t1 := (1/2) * (t - s) + 1/2
    let s2 := min (max s 0) 1
    let t2 := min (max t 0) 1
    let sC := if 1 < s + t then s1 else s2
    let tC := if 1 < s + t then t1 else t2
    let x := tC * x20 + (sC * x10 + x0)
    let y := tC * y20 + (sC * y10 + y0)
    let z := tC * z20 + (sC * z10 + z0)
    let squareR := z * z + (y * y + x * x)
    decide ((3 : ℚ) < squareR)

/-- Round to nearest, ties to even (the semantics of `llvm.rint` used by the
small-primitive filter), over `ℚ`. -/
def roundEven (q : ℚ) : ℚ :=
  let f : ℤ := Int.floor q
  let r : ℚ := q - f
  if r < 1/2 then (f : ℚ)
  else if 1/2 < r then (f : ℚ) + 1
  else if f % 2 = 0 then (f : ℚ) else (f : ℚ) + 1

/-- The AMD `fmed3` median-of-three (used as a clamp by the small-primitive
filter). -/
def fmed3 (a b c : ℚ) : ℚ := max (min a b) (min (max a b) c)

/-- Model of `createSmallPrimFilterCuller`: short-circuit on an incoming
`true` flag or under conservative rasterization; otherwise compute the
screen-space bounding box (clamped to the expanded viewport when the frustum
culler is disabled at compile time), expand it by 1/256, round to integer
pixel boundaries with round-to-even, and cull iff the box has zero extent on
some axis and the three `w` sign bits allow it (all negative, or all
non-negative with not all three `w` bit patterns zero — the source tests the
sign via integer AND/OR of the float bit patterns). -/
def smallPrimFilterCuller (frustumEnabled : Bool) (cullFlag : Bool)
    (vertex0 vertex1 vertex2 : Vec4) (paClVteCntl : Nat)
    (xScale xOffset yScale yOffset : ℚ) (conservativeRaster : Bool) : Bool :=
  if cullFlag || conservativeRaster then cullFlag
  else
    let vtxXyFmt := createUBfe paClVteCntl 8 1 = 1
    let rcpW0 : ℚ := if vtxXyFmt then 1 else 1 / vertex0.w
    let rcpW1 : ℚ := if vtxXyFmt then 1 else 1 / vertex1.w
    let rcpW2 : ℚ := if vtxXyFmt then 1 else 1 / vertex2.w
    let x0 := vertex0.x * rcpW0
    let y0 := vertex0.y * rcpW0
    let x1 := vertex1.x * rcpW1
    let y1 := vertex1.y * rcpW1
    let x2 := vertex2.x * rcpW2
    let y2 := vertex2.y * rcpW2
    let screenMinX := -xScale + xOffset + (-(3/4))
    let screenMaxX := xScale + xOffset + 3/4
    let screenMinY := -yScale + yOffset + (-(3/4))
    let screenMaxY := yScale + yOffset + 3/4
    let screenX0 := x0 * xScale + xOffset
    let screenX1 := x1 * xScale + xOffset
    let screenX2 := x2 * xScale + xOffset
    let minXRaw := min (min screenX0 screenX1) screenX2
    let minXClamped := if frustumEnabled then minXRaw else fmed3 screenMinX minXRaw screenMaxX
    let minX := roundEven (minXClamped + (-(1/256)))
    let maxXRaw := max (max screenX0 screenX1) screenX2
    let maxXClamped := if frustumEnabled then maxXRaw else fmed3 screenMinX maxXRaw screenMaxX
    let maxX := roundEven (maxXClamped + 1/256)
    let screenY0 := y0 * yScale + yOffset
    let screenY1 := y1 * yScale + yOffset
    let screenY2 := y2 * yScale + yOffset
    let minYRaw := min (min screenY0 screenY1) screenY2
    let minYClamped := if frustumEnabled then minYRaw else fmed3 screenMinY minYRaw screenMaxY
    let minY := roundEven (minYClamped + (-(1/256)))
    let maxYRaw := max (max screenY0 screenY1) screenY2
    let maxYClamped := if frustumEnabled then maxYRaw else fmed3 screenMinY maxYRaw screenMaxY
    let maxY := roundEven (maxYClamped + 1/256)
    let zeroExtent := decide (minX = maxX) || decide (minY = maxY)
    let isAllWNeg := decide (vertex0.w < 0) && decide (vertex1.w < 0) && decide (vertex2.w < 0)
    let isAllWPos := (decide (0 ≤ vertex0.w) && decide (0 ≤ vertex1.w) && decide (0 ≤ vertex2.w))
      && !(decide (vertex0.w = 0) && decide (vertex1.w = 0) && decide (vertex2.w = 0))
    let allowCull := isAllWNeg || isAllWPos
    allowCull && zeroExtent

/-- Model of `createCullDistanceCuller`: short-circuit on an incoming `true`
flag, otherwise cull iff the bitwise AND of the three per-vertex
cull-distance sign masks is nonzero. -/
def cullDistanceCuller (cullFlag : Bool) (signMask0 signMask1 signMask2 : Nat) : Bool :=
  if cullFlag then cullFlag
  else decide (signMask0 &&& signMask1 &&& signMask2 ≠ 0)

/-- The per-vertex cull-distance sign mask written in `.writeVertCullData`:
bit `i` is the sign bit of the `i`-th cull-distance value (a negative
rational models a float with its sign bit set).  The source ORs
`signBit(d_i) << i` over the values; this recursion produces bit 0 from the
head and shifts the rest up by one, which accumulates the same word. -/
def cullDistanceSignMask : List ℚ → Nat
  | [] => 0
  | d :: rest => (if d < 0 then 1 else 0) ||| (cullDistanceSignMask rest <<< 1)

/-- The per-culler enable flags of the pipeline's NGG control state. -/
structure CullingConfig where
  enableBackfaceCulling : Bool
  enableFrustumCulling : Bool
  enableBoxFilterCulling : Bool
  enableSphereCulling : Bool
  enableSmallPrimFilter : Bool
  enableCullDistanceCulling : Bool

/-- Modelled from the spec: `NggPrimShader::enableCulling` (declared in a
header that is not part of the provided sources) — culling work is requested
iff at least one culler is enabled. -/
def enableCulling (cfg : CullingConfig) : Bool :=
  cfg.enableBackfaceCulling || cfg.enableFrustumCulling || cfg.enableBoxFilterCulling
    || cfg.enableSphereCulling || cfg.enableSmallPrimFilter || cfg.enableCullDistanceCulling

/-- The control-register values the culling wrappers fetch from the
primitive-shader table: bit patterns for the fields used as integers, exact
rationals for the values used as floats. -/
structure CullingRegs where
  backfaceExponent : Nat
  paSuScModeCntl : Nat
  paClVportXscaleBits : Nat
  paClVportYscaleBits : Nat
  paClClipCntl : Nat
  paClVteCntl : Nat
  xDiscAdj : ℚ
  yDiscAdj : ℚ
  vportXscale : ℚ
  vportXoffset : ℚ
  vportYscale : ℚ
  vportYoffset : ℚ
  conservativeRaster : Bool

/-- Model of `NggPrimShader::doCulling`: `false` when no culler is
requested, otherwise the OR-accumulating chain over the six cullers in fixed
order, each gated by its enable flag, starting from a `false` flag. -/
def doCulling (cfg : CullingConfig) (regs : CullingRegs) (vertex0 vertex1 vertex2 : Vec4)
    (signMask0 signMask1 signMask2 : Nat) : Bool :=
  if !enableCulling cfg then false
  else
    let cullFlag0 := false
    let cullFlag1 :=
      if cfg.enableBackfaceCulling then
        backfaceCuller cullFlag0 vertex0 vertex1 vertex2 regs.backfaceExponent
          regs.paSuScModeCntl regs.paClVportXscaleBits regs.paClVportYscaleBits
      else cullFlag0
    let cullFlag2 :=
      if cfg.enableFrustumCulling then
        frustumCuller cullFlag1 vertex0 vertex1 vertex2 regs.paClClipCntl regs.xDiscAdj
          regs.yDiscAdj
      else cullFlag1
    let cullFlag3 :=
      if cfg.enableBoxFilterCulling then
        boxFilterCuller cullFlag2 vertex0 vertex1 vertex2 regs.paClVteCntl regs.paClClipCntl
          regs.xDiscAdj regs.yDiscAdj
      else cullFlag2
    let cullFlag4 :=
      if cfg.enableSphereCulling then
        sphereCuller cullFlag3 vertex0 vertex1 vertex2 regs.paClVteCntl regs.paClClipCntl
          regs.xDiscAdj regs.yDiscAdj
      else cullFlag3
    let cullFlag5 :=
      if cfg.enableSmallPrimFilter then
        smallPrimFilterCuller cfg.enableFrustumCulling cullFlag4 vertex0 vertex1 vertex2
          regs.paClVteCntl regs.vportXscale regs.vportXoffset regs.vportYscale
          regs.vportYoffset regs.conservativeRaster
      else cullFlag4
    let cullFlag6 :=
      if cfg.enableCullDistanceCulling then
        cullDistanceCuller cullFlag5 signMask0 signMask1 signMask2
      else cullFlag5
    cullFlag6

/-- Counterexample to claim C4 as stated: the backface culler does not
return `true` whenever its incoming cull flag is `true` — with
`PA_SU_SC_MODE_CNTL[4:3] = 1` (wireframe), the `.backfaceExit` override
forces the returned flag to `false` even though the incoming flag is `true`. -/
theorem c4_counterexample_backface_wireframe :
    backfaceCuller true (Vec4.mk 0 0 0 1) (Vec4.mk 0 0 0 1) (Vec4.mk 0 0 0 1) 0 8 0 0 = false
    ∧ createUBfe 8 3 2 = 1 := by
  exact ⟨rfl, rfl⟩

theorem frustumCuller_or_false (f : Bool) (v0 v1 v2 : Vec4) (cntl : Nat) (xa ya : ℚ) :
    frustumCuller f v0 v1 v2 cntl xa ya = (f || frustumCuller false v0 v1 v2 cntl xa ya) := by
  cases f <;> simp [frustumCuller]

theorem boxFilterCuller_or_false (f : Bool) (v0 v1 v2 : Vec4) (vte clip : Nat) (xa ya : ℚ) :
    boxFilterCuller f v0 v1 v2 vte clip xa ya =
      (f || boxFilterCuller false v0 v1 v2 vte clip xa ya) := by
  cases f <;> simp [boxFilterCuller]

theorem sphereCuller_or_false (f : Bool) (v0 v1 v2 : Vec4) (vte clip : Nat) (xa ya : ℚ) :
    sphereCuller f v0 v1 v2 vte clip xa ya =
      (f || sphereCuller false v0 v1 v2 vte clip xa ya) := by
  cases f <;> simp [sphereCuller]

theorem smallPrimFilterCuller_or_false (fe f : Bool) (v0 v1 v2 : Vec4) (vte : Nat)
    (xs xo ys yo : ℚ) (cr : Bool) :
    smallPrimFilterCuller fe f v0 v1 v2 vte xs xo ys yo cr =
      (f || smallPrimFilterCuller fe false v0 v1 v2 vte xs xo ys yo cr) := by
  cases f <;> simp [smallPrimFilterCuller]

theorem cullDistanceCuller_or_false (f : Bool) (m0 m1 m2 : Nat) :
    cullDistanceCuller f m0 m1 m2 = (f || cullDistanceCuller false m0 m1 m2) := by
  cases f <;> simp [cullDistanceCuller]

theorem ite_or_and (c f x : Bool) : (if c then f || x else f) = (f || (c && x)) := by
  cases c <;> cases f <;> cases x <;> rfl

theorem ite_and_false (c x : Bool) : (if c then x else false) = (c && x) := by
  cases c <;> rfl

/-- Claim C4 (amended): every culler short-circuits its own computation when
the incoming cull flag is already `true`; the frustum, box-filter, sphere,
small-primitive-filter and cull-distance cullers then return `true`
(monotone in the incoming flag), while the backface culler returns `true`
only outside wireframe mode — with `POLY_MODE == 1` its exit-block override
returns `false` regardless of the incoming flag.  `doCulling` starts the
chain from a `false` flag, so the final flag is still `true` iff at least
one enabled predicate, applied to a `false` incoming flag, decided to
cull. -/
theorem c4_cullers_short_circuit_or (cfg : CullingConfig) (regs : CullingRegs)
    (v0 v1 v2 : Vec4) (signMask0 signMask1 signMask2 : Nat)
    (cullFlag frustumEnabled : Bool) :
    frustumCuller true v0 v1 v2 regs.paClClipCntl regs.xDiscAdj regs.yDiscAdj = true
    ∧ boxFilterCuller true v0 v1 v2 regs.paClVteCntl regs.paClClipCntl regs.xDiscAdj
        regs.yDiscAdj = true
    ∧ sphereCuller true v0 v1 v2 regs.paClVteCntl regs.paClClipCntl regs.xDiscAdj
        regs.yDiscAdj = true
    ∧ smallPrimFilterCuller frustumEnabled true v0 v1 v2 regs.paClVteCntl regs.vportXscale
        regs.vportXoffset regs.vportYscale regs.vportYoffset regs.conservativeRaster = true
    ∧ cullDistanceCuller true signMask0 signMask1 signMask2 = true
    ∧ (createUBfe regs.paSuScModeCntl 3 2 ≠ 1 →
        backfaceCuller true v0 v1 v2 regs.backfaceExponent regs.paSuScModeCntl
          regs.paClVportXscaleBits regs.paClVportYscaleBits = true)
    ∧ (createUBfe regs.paSuScModeCntl 3 2 = 1 →
        backfaceCuller cullFlag v0 v1 v2 regs.backfaceExponent regs.paSuScModeCntl
          regs.paClVportXscaleBits regs.paClVportYscaleBits = false)
    ∧ doCulling cfg regs v0 v1 v2 signMask0 signMask1 signMask2 =
        ((((((cfg.enableBackfaceCulling && backfaceCuller false v0 v1 v2
                regs.backfaceExponent regs.paSuScModeCntl regs.paClVportXscaleBits
                regs.paClVportYscaleBits)
          || (cfg.enableFrustumCulling && frustumCuller false v0 v1 v2 regs.paClClipCntl
                regs.xDiscAdj regs.yDiscAdj))
          || (cfg.enableBoxFilterCulling && boxFilterCuller false v0 v1 v2 regs.paClVteCntl
                regs.paClClipCntl regs.xDiscAdj regs.yDiscAdj))
          || (cfg.enableSphereCulling && sphereCuller false v0 v1 v2 regs.paClVteCntl
                regs.paClClipCntl regs.xDiscAdj regs.yDiscAdj))
          || (cfg.enableSmallPrimFilter && smallPrimFilterCuller cfg.enableFrustumCulling
                false v0 v1 v2 regs.paClVteCntl regs.vportXscale regs.vportXoffset
                regs.vportYscale regs.vportYoffset regs.conservativeRaster))
          || (cfg.enableCullDistanceCulling
                && cullDistanceCuller false signMask0 signMask1 signMask2)) := by
  refine ⟨by simp [frustumCuller], by simp [boxFilterCuller], by simp [sphereCuller],
    by simp [smallPrimFilterCuller], by simp [cullDistanceCuller], ?_, ?_, ?_⟩
  · intro h
    simp [backfaceCuller, h]
  · intro h
    simp [backfaceCuller, h]
  · by_cases hen : enableCulling cfg = true
    · simp only [doCulling, hen, Bool.not_true, Bool.false_eq_true, if_false]
      rw [cullDistanceCuller_or_false, ite_or_and, smallPrimFilterCuller_or_false,
        ite_or_and, sphereCuller_or_false, ite_or_and, boxFilterCuller_or_false,
        ite_or_and, frustumCuller_or_false, ite_or_and, ite_and_false]
    · have hflags := hen
      rw [Bool.not_eq_true] at hflags
      rw [enableCulling] at hflags
      repeat rw [Bool.or_eq_false_iff] at hflags
      obtain ⟨⟨⟨⟨⟨hb, hf⟩, hx⟩, hs⟩, hm⟩, hc⟩ := hflags
      simp [doCulling, hb, hf, hx, hs, hm, hc, enableCulling]

/-- Witness for the amended claim C4: both backface conjuncts discharged at
concrete register values (`PA_SU_SC_MODE_CNTL = 0`: no wireframe;
`PA_SU_SC_MODE_CNTL = 8`: wireframe). -/
theorem c4_cullers_short_circuit_or_witness :
    (createUBfe 0 3 2 ≠ 1
      ∧ backfaceCuller true (Vec4.mk 0 0 0 1) (Vec4.mk 0 0 0 1) (Vec4.mk 0 0 0 1) 0 0 0 0 = true)
    ∧ (createUBfe 8 3 2 = 1
      ∧ backfaceCuller true (Vec4.mk 0 0 0 1) (Vec4.mk 0 0 0 1) (Vec4.mk 0 0 0 1) 0 8 0 0 = false)
    ∧ frustumCuller true (Vec4.mk 0 0 0 1) (Vec4.mk 0 0 0 1) (Vec4.mk 0 0 0 1) 0 1 1 = true :=
  ⟨⟨by decide,
    ((c4_cullers_short_circuit_or
        (CullingConfig.mk false false false false false false)
        (CullingRegs.mk 0 0 0 0 0 0 1 1 1 0 1 0 false)
        (Vec4.mk 0 0 0 1) (Vec4.mk 0 0 0 1) (Vec4.mk 0 0 0 1) 0 0 0 true true).2.2.2.2.2.1
      (by decide))⟩,
   ⟨by decide,
    ((c4_cullers_short_circuit_or
        (CullingConfig.mk false false false false false false)
        (CullingRegs.mk 0 8 0 0 0 0 1 1 1 0 1 0 false)
        (Vec4.mk 0 0 0 1) (Vec4.mk 0 0 0 1) (Vec4.mk 0 0 0 1) 0 0 0 true true).2.2.2.2.2.2.1
      (by decide))⟩,
   (c4_cullers_short_circuit_or
      (CullingConfig.mk false false false false false false)
      (CullingRegs.mk 0 0 0 0 0 0 1 1 1 0 1 0 false)
      (Vec4.mk 0 0 0 1) (Vec4.mk 0 0 0 1) (Vec4.mk 0 0 0 1) 0 0 0 true true).1⟩

theorem frustumClipMask_testBit_one (z xa ya : ℚ) (v : Vec4) (h : xa * v.w < v.x) :
    (frustumClipMask z xa ya v).testBit 1 = true := by
  unfold frustumClipMask
  rw [if_pos h]
  split_ifs <;> decide

/-- Claim C6: the frustum culler builds a 6-bit violated-half-space mask per
vertex (`x` below/above the guard-band range, `y` below/above, `z` below the
clip-space near plane `zNear * w`, `z` above `w`) and culls iff the bitwise
AND of the three masks is nonzero; a triangle whose three vertices all
satisfy `x > xDiscAdj * w` is culled, and the same triangle with one vertex
inside all six half-spaces is not. -/
theorem c6_frustum_culler (v0 v1 v2 vx : Vec4) (paClClipCntl : Nat) (xDiscAdj yDiscAdj : ℚ) :
    (frustumCuller false v0 v1 v2 paClClipCntl xDiscAdj yDiscAdj = true ↔
      frustumClipMask (frustumZNear paClClipCntl) xDiscAdj yDiscAdj v0
        &&& frustumClipMask (frustumZNear paClClipCntl) xDiscAdj yDiscAdj v1
        &&& frustumClipMask (frustumZNear paClClipCntl) xDiscAdj yDiscAdj v2 ≠ 0)
    ∧ (frustumClipMask (frustumZNear paClClipCntl) xDiscAdj yDiscAdj vx = 0 ↔
        (¬(vx.x < -xDiscAdj * vx.w) ∧ ¬(xDiscAdj * vx.w < vx.x)
          ∧ ¬(vx.y < -yDiscAdj * vx.w) ∧ ¬(yDiscAdj * vx.w < vx.y)
          ∧ ¬(vx.z < frustumZNear paClClipCntl * vx.w) ∧ ¬(vx.w < vx.z)))
    ∧ (xDiscAdj * v0.w < v0.x → xDiscAdj * v1.w < v1.x → xDiscAdj * v2.w < v2.x →
        frustumCuller false v0 v1 v2 paClClipCntl xDiscAdj yDiscAdj = true)
    ∧ (frustumClipMask (frustumZNear paClClipCntl) xDiscAdj yDiscAdj v1 = 0 →
        frustumCuller false v0 v1 v2 paClClipCntl xDiscAdj yDiscAdj = false) := by
  refine ⟨by simp [frustumCuller], ?_, ?_, ?_⟩
  · unfold frustumClipMask
    split_ifs <;> simp_all
  · intro h0 h1 h2
    have hbit : (frustumClipMask (frustumZNear paClClipCntl) xDiscAdj yDiscAdj v0
        &&& frustumClipMask (frustumZNear paClClipCntl) xDiscAdj yDiscAdj v1
        &&& frustumClipMask (frustumZNear paClClipCntl) xDiscAdj yDiscAdj v2).testBit 1 =
        true := by
      rw [Nat.testBit_land, Nat.testBit_land, frustumClipMask_testBit_one _ _ _ _ h0,
        frustumClipMask_testBit_one _ _ _ _ h1, frustumClipMask_testBit_one _ _ _ _ h2]
      rfl
    have hne : frustumClipMask (frustumZNear paClClipCntl) xDiscAdj yDiscAdj v0
        &&& frustumClipMask (frustumZNear paClClipCntl) xDiscAdj yDiscAdj v1
        &&& frustumClipMask (frustumZNear paClClipCntl) xDiscAdj yDiscAdj v2 ≠ 0 := by
      intro hzero
      rw [hzero] at hbit
      simp [Nat.zero_testBit] at hbit
    simp [frustumCuller, hne]
  · intro h1
    simp [frustumCuller, h1, Nat.and_zero, Nat.zero_and]

/-- Witness for claim C6: the all-outside triangle `x = 2, w = 1` with
`xDiscAdj = 1` is culled; the vertex at the origin with `w = 1` is inside. -/
theorem c6_frustum_culler_witness :
    ((1 : ℚ) * 1 < 2 ∧ frustumClipMask (frustumZNear 0) 1 1 (Vec4.mk 0 0 0 1) = 0)
    ∧ frustumCuller false (Vec4.mk 2 0 0 1) (Vec4.mk 2 0 0 1) (Vec4.mk 2 0 0 1) 0 1 1 = true
    ∧ frustumCuller false (Vec4.mk 2 0 0 1) (Vec4.mk 0 0 0 1) (Vec4.mk 2 0 0 1) 0 1 1 = false := by
  have hlt : (1 : ℚ) * 1 < 2 := by norm_num
  have hmask : frustumClipMask (frustumZNear 0) 1 1 (Vec4.mk 0 0 0 1) = 0 := by
    have hz : frustumZNear 0 = 0 := by norm_num [frustumZNear, createUBfe]
    rw [hz]
    norm_num [frustumClipMask]
  exact ⟨⟨hlt, hmask⟩,
    (c6_frustum_culler (Vec4.mk 2 0 0 1) (Vec4.mk 2 0 0 1) (Vec4.mk 2 0 0 1)
      (Vec4.mk 0 0 0 1) 0 1 1).2.2.1 hlt hlt hlt,
    (c6_frustum_culler (Vec4.mk 2 0 0 1) (Vec4.mk 0 0 0 1) (Vec4.mk 2 0 0 1)
      (Vec4.mk 0 0 0 1) 0 1 1).2.2.2 hmask⟩

theorem cullDistanceSignMask_testBit :
    ∀ (ds : List ℚ) (i : Nat) (hi : i < ds.length),
      (cullDistanceSignMask ds).testBit i = decide (ds.get ⟨i, hi⟩ < 0) := by
  intro ds
  induction ds with
  | nil => intro i hi; simp at hi
  | cons d rest ih =>
    intro i hi
    cases i with
    | zero =>
      simp only [cullDistanceSignMask, Nat.testBit_lor, Nat.testBit_shiftLeft, List.get]
      split_ifs <;> simp_all
    | succ i =>
      have hi' : i < rest.length := by simpa using hi
      simp only [cullDistanceSignMask, Nat.testBit_lor, Nat.testBit_shiftLeft, List.get,
        Nat.add_sub_cancel]
      rw [ih i hi']
      have hsmall : (if d < 0 then 1 else 0 : Nat).testBit (i + 1) = false := by
        split_ifs <;> exact Nat.testBit_eq_false_of_lt (by simp [Nat.one_lt_two_pow_iff])
      rw [hsmall]
      have hge : decide (i + 1 ≥ 1) = true := by simp
      rw [hge]
      simp

/-- Claim C7: the cull-distance culler, on a `false` incoming flag, returns
`true` iff the bitwise AND of the three per-vertex sign masks is nonzero,
where a vertex's sign mask has bit `i` set iff its `i`-th cull-distance
value is negative. -/
theorem c7_cull_distance_culler (signMask0 signMask1 signMask2 : Nat) (ds : List ℚ)
    (i : Nat) (hi : i < ds.length) :
    (cullDistanceCuller false signMask0 signMask1 signMask2 = true ↔
      signMask0 &&& signMask1 &&& signMask2 ≠ 0)
    ∧ (cullDistanceSignMask ds).testBit i = decide (ds.get ⟨i, hi⟩ < 0) := by
  exact ⟨by simp [cullDistanceCuller], cullDistanceSignMask_testBit ds i hi⟩

/-- Witness for claim C7 at a concrete cull-distance list. -/
theorem c7_cull_distance_culler_witness :
    (1 : Nat) < ([1, -2, 3] : List ℚ).length
    ∧ ((cullDistanceCuller false 3 1 5 = true ↔ 3 &&& 1 &&& 5 ≠ 0)
      ∧ (cullDistanceSignMask [1, -2, 3]).testBit 1 =
          decide (([1, -2, 3] : List ℚ).get ⟨1, by decide⟩ < 0)) :=
  ⟨by decide, c7_cull_distance_culler 3 1 5 [1, -2, 3] 1 (by decide)⟩
